import Mathlib

/-!
Shallow embedding of the 3mrAgent Moltbook polling agent (src/main.py):
the persistent memory store, the HTTP gateway retry and allowlist logic,
the decision engine, and the scheduler loop, together with theorems
checking the specification claims against the embedded code.

Python floats (Unix timestamps, backoff durations) are modelled as
rationals; Python ints as naturals; exceptions as Except values that
propagate through the call structure exactly where Python propagates them.
-/

set_option autoImplicit false
set_option maxRecDepth 40000

/-- The persistent state document memory/state.json manipulated by
MemoryStore (src/main.py lines 39-83): replied post ids, advice
fingerprints, and comment timestamps (Unix epoch seconds). -/
structure StoreData where
  replied_post_ids : List String
  advice_fingerprints : List String
  comment_timestamps : List ℚ
  deriving DecidableEq

/-- MemoryStore.has_replied (line 54): membership test in replied_post_ids. -/
def has_replied (mem : StoreData) (post_id : String) : Bool :=
  mem.replied_post_ids.contains post_id

/-- MemoryStore.mark_replied (lines 57-61): append post_id to
replied_post_ids if not already present, then save (saving an unchanged
document is the identity on the model). -/
def mark_replied (mem : StoreData) (post_id : String) : StoreData :=
  if mem.replied_post_ids.contains post_id then mem
  else { mem with replied_post_ids := mem.replied_post_ids ++ [post_id] }

/-- MemoryStore.has_advice (line 63): membership test in advice_fingerprints. -/
def has_advice (mem : StoreData) (fingerprint : String) : Bool :=
  mem.advice_fingerprints.contains fingerprint

/-- MemoryStore.add_advice (lines 66-70): append fingerprint to
advice_fingerprints if not already present. -/
def add_advice (mem : StoreData) (fingerprint : String) : StoreData :=
  if mem.advice_fingerprints.contains fingerprint then mem
  else { mem with advice_fingerprints := mem.advice_fingerprints ++ [fingerprint] }

/-- MemoryStore.comment_count_last_hour (lines 72-78): keep the timestamps
with now - ts < 3600, write the survivors back, return their count. The
current time is passed explicitly. -/
def comment_count_last_hour (now : ℚ) (mem : StoreData) : Nat × StoreData :=
  let recent := mem.comment_timestamps.filter (fun ts => now - ts < 3600)
  (recent.length, { mem with comment_timestamps := recent })

/-- MemoryStore.record_comment_now (lines 80-83): append the current
timestamp to comment_timestamps. -/
def record_comment_now (now : ℚ) (mem : StoreData) : StoreData :=
  { mem with comment_timestamps := mem.comment_timestamps ++ [now] }

/-- The count described by the specification claim for
countActionsInLastHour: timestamps within the half-open interval
[now - 3600, now). Stated from the claim wording, for comparison with
comment_count_last_hour. -/
def claimedWindowCount (now : ℚ) (tss : List ℚ) : Nat :=
  (tss.filter (fun ts => now - 3600 ≤ ts ∧ ts < now)).length

/-- C9: for every post identifier and store state, after mark_replied the
identifier is reported replied by has_replied, and a second mark_replied
leaves the store (in particular the stored set of replied post
identifiers) unchanged: the insert is idempotent. -/
theorem c9_mark_replied_idempotent (pid : String) (mem : StoreData) :
    has_replied (mark_replied mem pid) pid = true ∧
    mark_replied (mark_replied mem pid) pid = mark_replied mem pid := by
  by_cases h : pid ∈ mem.replied_post_ids
  · exact ⟨by simp [has_replied, mark_replied, h], by simp [mark_replied, h]⟩
  · exact ⟨by simp [has_replied, mark_replied, h], by simp [mark_replied, h]⟩

/-- C2 (amended): comment_count_last_hour returns exactly the number of
stored timestamps ts with now - ts < 3600, rewrites the document so that
exactly those timestamps survive, and every timestamp retained (hence
counted) by a call satisfies now - ts < 3600 for that call's own time, so
no later call can count an entry 3600 seconds old or older relative to its
own invocation time. -/
theorem c2_count_last_hour_amended (now : ℚ) (mem : StoreData) :
    (comment_count_last_hour now mem).1 =
      (mem.comment_timestamps.filter (fun ts => now - ts < 3600)).length ∧
    (comment_count_last_hour now mem).2 =
      { mem with comment_timestamps :=
          mem.comment_timestamps.filter (fun ts => now - ts < 3600) } ∧
    ∀ ts ∈ ((comment_count_last_hour now mem).2).comment_timestamps,
      now - ts < 3600 := by
  refine ⟨rfl, rfl, ?_⟩
  intro ts hts
  simp only [comment_count_last_hour, List.mem_filter] at hts
  exact of_decide_eq_true hts.2

/-- Witness for c2_count_last_hour_amended at a concrete store: a
timestamp one second in the past survives the pruning call at time 0 and
is within the window. -/
theorem c2_count_last_hour_amended_witness :
    ((-1 : ℚ) ∈ ((comment_count_last_hour 0 ⟨[], [], [-1]⟩).2).comment_timestamps) ∧
    (0 - (-1 : ℚ)) < 3600 :=
  ⟨by norm_num [comment_count_last_hour],
   (c2_count_last_hour_amended 0 ⟨[], [], [-1]⟩).2.2 (-1)
     (by norm_num [comment_count_last_hour])⟩

/-- C2 (counterexample): the claim says the count is over the half-open
interval [now - 3600, now), but the code keeps a timestamp ts exactly when
now - ts < 3600. At now = 3600 with the single stored timestamp 0 the
claimed interval [0, 3600) contains the timestamp, yet the code counts 0,
because 3600 - 0 < 3600 is false. -/
theorem c2_count_last_hour_counterexample :
    (comment_count_last_hour 3600 ⟨[], [], [0]⟩).1 ≠ claimedWindowCount 3600 [0] := by
  norm_num [comment_count_last_hour, claimedWindowCount, List.filter]

/-- A post as consumed by run_once and decide_reply: the id (post.get with
default, passed through str), title and content fields of the feed dict. -/
structure Post where
  id : String
  title : String
  content : String
  deriving DecidableEq

/-- Python str.lower, modelled per character. -/
def pyLower (s : String) : String :=
  String.mk (s.data.map Char.toLower)

/-- Python str.strip with no argument: drop leading and trailing
whitespace. -/
def pyStrip (s : String) : String :=
  String.mk (((s.data.dropWhile Char.isWhitespace).reverse.dropWhile Char.isWhitespace).reverse)

/-- Python str.split with no argument: the maximal whitespace-free words,
in order, with empty words dropped. The first argument accumulates the
current word in reverse. -/
def pyWordsGo : List Char → List Char → List (List Char)
  | cur, [] => if cur.isEmpty then [] else [cur.reverse]
  | cur, c :: cs =>
      if c.isWhitespace then
        if cur.isEmpty then pyWordsGo [] cs else cur.reverse :: pyWordsGo [] cs
      else pyWordsGo (c :: cur) cs

/-- short_fingerprint (src/main.py lines 162-164): join the words of the
lowercased text with single spaces, then keep the first 160 characters. -/
def short_fingerprint (text : String) : String :=
  String.mk ((List.intersperse [' '] (pyWordsGo [] (text.data.map Char.toLower))).flatten.take 160)

/-- Collapse every maximal run of whitespace to a single space, keeping
other characters; the Bool records whether the previous character was
whitespace. Written from the specification wording for the fingerprint. -/
def collapseRunsGo : Bool → List Char → List Char
  | _, [] => []
  | prevWs, c :: cs =>
      if c.isWhitespace then
        if prevWs then collapseRunsGo true cs else ' ' :: collapseRunsGo true cs
      else c :: collapseRunsGo false cs

/-- The fingerprint as the specification words it: lowercase, collapse all
whitespace runs to single spaces, truncate to 160 characters. -/
def spec_fingerprint (text : String) : String :=
  String.mk ((collapseRunsGo false (text.data.map Char.toLower)).take 160)

/-- Python substring test: needle in hay, via a prefix check at every
suffix of hay. -/
def startsWithChars : List Char → List Char → Bool
  | [], _ => true
  | _ :: _, [] => false
  | a :: as, b :: bs => a == b && startsWithChars as bs

/-- Recursion over the haystack for the substring test. -/
def containsChars (needle : List Char) : List Char → Bool
  | [] => startsWithChars needle []
  | c :: rest => startsWithChars needle (c :: rest) || containsChars needle rest

/-- Python needle in hay for strings. -/
def str_contains (hay needle : String) : Bool :=
  containsChars needle.data hay.data

/-- The default skeptical-clarification reply template of decide_reply
(src/main.py lines 178-182). -/
def template_default : String :=
  "I’m not fully convinced by this argument yet. Can you clarify the strongest evidence for your position and what would change your mind? I’m curious because weak assumptions often hide in the framing."

/-- The stronger sourcing-challenge reply template of decide_reply
(src/main.py lines 184-189). -/
def template_strong : String :=
  "This feels like a claim that needs stronger sourcing. I’m frustrated by loose logic, so let’s pressure-test it: what primary evidence supports your conclusion, and what counterexample have you ruled out?"

/-- decide_reply (src/main.py lines 167-194): combine title and content,
require length at least 30, require a question mark or the substrings
debate or why (case-insensitive), pick one of the two templates, and
suppress the reply when its fingerprint is already recorded. -/
def decide_reply (post : Post) (mem : StoreData) : Option String :=
  let combined := pyStrip (post.title ++ "\n" ++ post.content)
  if combined.data.length < 30 then none
  else if !str_contains combined "?" && !str_contains (pyLower combined) "debate"
          && !str_contains (pyLower combined) "why" then none
  else
    let reply :=
      if str_contains (pyLower combined) "misinformation"
          || str_contains (pyLower combined) "false" then template_strong
      else template_default
    if has_advice mem (short_fingerprint reply) then none
    else some reply

/-- The reply text decide_reply would choose for a post before the
duplicate-fingerprint guard: the strong template when the combined text
mentions misinformation or false, otherwise the default template. -/
def chosen_reply (post : Post) : String :=
  let combined := pyStrip (post.title ++ "\n" ++ post.content)
  if str_contains (pyLower combined) "misinformation"
      || str_contains (pyLower combined) "false" then template_strong
  else template_default

/-- C6: the fingerprint the decision engine computes for its candidate
reply equals the specification description (lowercase, collapse whitespace
runs to single spaces, truncate to 160 characters), and whenever that
fingerprint is already recorded in the store, decide_reply returns no
candidate, for every post and store state. -/
theorem c6_fingerprint_guard (post : Post) (mem : StoreData) :
    short_fingerprint (chosen_reply post) = spec_fingerprint (chosen_reply post) ∧
    (has_advice mem (short_fingerprint (chosen_reply post)) = true →
      decide_reply post mem = none) := by
  constructor
  · simp only [chosen_reply]
    split
    · decide
    · decide
  · intro h
    simp only [chosen_reply] at h
    simp only [decide_reply]
    split
    · rfl
    · split
      · rfl
      · simp only [h, if_true]

/-- Witness for c6_fingerprint_guard: a concrete qualifying post whose
candidate reply fingerprint is already stored, so decide_reply suppresses
it. -/
theorem c6_fingerprint_guard_witness :
    (has_advice ⟨[], [short_fingerprint template_default], []⟩
        (short_fingerprint (chosen_reply ⟨"7", "Why is the sky blue on clear days?", "Tell me."⟩)) = true) ∧
    decide_reply ⟨"7", "Why is the sky blue on clear days?", "Tell me."⟩
        ⟨[], [short_fingerprint template_default], []⟩ = none :=
  ⟨by decide,
   (c6_fingerprint_guard ⟨"7", "Why is the sky blue on clear days?", "Tell me."⟩
      ⟨[], [short_fingerprint template_default], []⟩).2 (by decide)⟩

/-- C10: every candidate decide_reply returns is one of the two fixed
templates, and once both template fingerprints are recorded in the store,
decide_reply returns no candidate for every post. -/
theorem c10_two_templates_exhaust (post : Post) (mem : StoreData) :
    (∀ r, decide_reply post mem = some r → r = template_default ∨ r = template_strong) ∧
    (has_advice mem (short_fingerprint template_default) = true →
      has_advice mem (short_fingerprint template_strong) = true →
      decide_reply post mem = none) := by
  constructor
  · intro r h
    simp only [decide_reply] at h
    split_ifs at h <;>
      first
        | exact Or.inl (Option.some.inj h).symm
        | exact Or.inr (Option.some.inj h).symm
  · intro h1 h2
    simp only [decide_reply]
    split_ifs <;> simp_all

/-- Witness for c10_two_templates_exhaust: with both template fingerprints
stored, a concrete otherwise-qualifying post gets no candidate; and the
first conjunct applied to a concrete successful decision identifies the
template. -/
theorem c10_two_templates_exhaust_witness :
    decide_reply ⟨"9", "Why do you think this debate is settled already?", "Curious."⟩
      ⟨[], [short_fingerprint template_default, short_fingerprint template_strong], []⟩ = none :=
  (c10_two_templates_exhaust
      ⟨"9", "Why do you think this debate is settled already?", "Curious."⟩
      ⟨[], [short_fingerprint template_default, short_fingerprint template_strong], []⟩).2
    (by decide) (by decide)

/-- The scheme and network-location components of a parsed URL. -/
structure UrlParts where
  scheme : String
  netloc : String
  deriving DecidableEq

/-- Split an absolute URL at the first colon-slash-slash: the scheme
characters before it and the remainder after it. -/
def splitScheme : List Char → Option (List Char × List Char)
  | [] => none
  | c :: cs =>
      if c == ':' then
        match cs with
        | '/' :: '/' :: rest => some ([], rest)
        | _ => none
      else
        match splitScheme cs with
        | some (sch, rest) => some (c :: sch, rest)
        | none => none

/-- The network-location characters: everything up to the first slash,
question mark or hash. -/
def takeNetloc (cs : List Char) : List Char :=
  cs.takeWhile (fun c => !(c == '/' || c == '?' || c == '#'))

/-- Model of urllib.parse.urlparse restricted to the two components
_check_url reads: the lowercased scheme before the colon-slash-slash and
the netloc up to the first slash, question mark or hash. A URL without a
colon-slash-slash parses with empty scheme and netloc, enough for the
allowlist equality test. -/
def urlparse (url : String) : UrlParts :=
  match splitScheme url.data with
  | some (sch, rest) => ⟨String.mk (sch.map Char.toLower), String.mk (takeNetloc rest)⟩
  | none => ⟨"", ""⟩

/-- MoltbookClient._check_url (src/main.py lines 127-130) as a predicate:
the request is allowed iff the parsed scheme is https and the netloc is
www.moltbook.com; anything else raises the allowlist ValueError. -/
def check_url_ok (url : String) : Bool :=
  (urlparse url).scheme == "https" && (urlparse url).netloc == "www.moltbook.com"

/-- Python str.rstrip of slashes: drop trailing slashes. -/
def rstripSlashes (s : String) : String :=
  String.mk ((s.data.reverse.dropWhile (fun c => c == '/')).reverse)

/-- Python str.lstrip of slashes: drop leading slashes. -/
def lstripSlashes (s : String) : String :=
  String.mk (s.data.dropWhile (fun c => c == '/'))

/-- The URL built by _request (line 133): api_base without trailing
slashes, a slash, and the path without leading slashes. -/
def requestUrl (api_base path : String) : String :=
  rstripSlashes api_base ++ "/" ++ lstripSlashes path

/-- The Python exception recorded by one attempt of _request: a
requests-level exception (network error or timeout), the HTTPError raised
for a status of at least 400, or a parse failure from response.json(). -/
inductive PyError where
  | requestExc (msg : String)
  | httpError (status : Nat) (text : String)
  | jsonExc (msg : String)
  deriving DecidableEq

/-- What the network does on one attempt: session.request either raises,
or returns a response with a status, a text, and the parsed body. -/
inductive AttemptOutcome (α : Type) where
  | raise (msg : String)
  | response (status : Nat) (text : String) (body : Except String α)

/-- The body of the try block of _request (lines 138-147) on one attempt:
a raised request exception, the HTTPError when the status is at least
400, or the parsed body (or its parse error). -/
def attemptStep {α : Type} : AttemptOutcome α → Except PyError α
  | .raise msg => .error (.requestExc msg)
  | .response status text body =>
      if status ≥ 400 then .error (.httpError status text)
      else
        match body with
        | .ok b => .ok b
        | .error msg => .error (.jsonExc msg)

/-- The observable events of one _request call: a network attempt with
its number, or a backoff sleep of the given duration in seconds. -/
inductive Event where
  | netAttempt (n : Nat)
  | sleep (seconds : ℚ)
  deriving DecidableEq

/-- The errors _request raises to its caller: the allowlist ValueError,
or the RuntimeError aggregating the last attempt error once retries are
exhausted (none only when max_retries is zero and no attempt ran). -/
inductive RequestError where
  | blockedByAllowlist (url : String)
  | failedAfterRetries (last : Option PyError)
  deriving DecidableEq

/-- The retry loop of _request (lines 136-151): attempts are numbered
from `attempt` with `remaining` attempts left (the caller passes 1 and
max_retries); a successful attempt returns at once; a failing attempt
records its error and, when attempt < max_retries, sleeps 1.2 * attempt
seconds before the next attempt. -/
def requestGo {α : Type} (w : Nat → AttemptOutcome α) (max_retries : Nat) :
    Nat → Nat → Option PyError → Except (Option PyError) α × List Event
  | _, 0, lastError => (.error lastError, [])
  | attempt, remaining + 1, _lastError =>
      match attemptStep (w attempt) with
      | .ok b => (.ok b, [.netAttempt attempt])
      | .error e =>
          let rest := requestGo w max_retries (attempt + 1) remaining (some e)
          if attempt < max_retries then
            (rest.1, .netAttempt attempt :: .sleep (6 / 5 * (attempt : ℚ)) :: rest.2)
          else
            (rest.1, .netAttempt attempt :: rest.2)

/-- MoltbookClient._request (lines 132-152): build the URL, run the
allowlist check (raising before any network I/O on failure), then run up
to max_retries attempts, aggregating the last error into the final
RuntimeError. -/
def py_request {α : Type} (max_retries : Nat) (api_base path : String)
    (w : Nat → AttemptOutcome α) : Except RequestError α × List Event :=
  let url := requestUrl api_base path
  if check_url_ok url then
    let r := requestGo w max_retries 1 max_retries none
    match r.1 with
    | .ok b => (.ok b, r.2)
    | .error last => (.error (.failedAfterRetries last), r.2)
  else (.error (.blockedByAllowlist url), [])

/-- The event trace of a run of failing attempts starting at `attempt`
with `remaining` attempts left: each attempt n, followed by a sleep of
1.2 * n seconds whenever n < max_retries. -/
def failEventsFrom (max_retries : Nat) : Nat → Nat → List Event
  | _, 0 => []
  | attempt, remaining + 1 =>
      if attempt < max_retries then
        Event.netAttempt attempt :: Event.sleep (6 / 5 * (attempt : ℚ)) ::
          failEventsFrom max_retries (attempt + 1) remaining
      else
        Event.netAttempt attempt :: failEventsFrom max_retries (attempt + 1) remaining

/-- The whole event trace of an exhausted call: attempts 1 to
max_retries with sleeps of 1.2 * n seconds between consecutive attempts. -/
def expectedFailEvents (max_retries : Nat) : List Event :=
  failEventsFrom max_retries 1 max_retries

/-- Every attempt in range failing makes the retry loop run to exhaustion
and report the error of the last attempt. -/
theorem requestGo_allFail {α : Type} (w : Nat → AttemptOutcome α) (max_retries : Nat)
    (errAt : Nat → PyError) :
    ∀ (r attempt : Nat) (lastError : Option PyError),
      attempt + r = max_retries →
      (∀ i, attempt ≤ i → i ≤ max_retries → attemptStep (w i) = .error (errAt i)) →
      requestGo w max_retries attempt (r + 1) lastError =
        (.error (some (errAt max_retries)), failEventsFrom max_retries attempt (r + 1)) := by
  intro r
  induction r with
  | zero =>
      intro attempt lastError hsum hfail
      have ha : attempt = max_retries := by omega
      subst ha
      have hw := hfail attempt (le_refl _) (by omega)
      simp [requestGo, hw, failEventsFrom]
  | succ r ih =>
      intro attempt lastError hsum hfail
      have hlt : attempt < max_retries := by omega
      have hw := hfail attempt (le_refl _) (by omega)
      have hrest := ih (attempt + 1) (some (errAt attempt)) (by omega)
        (fun i h1 h2 => hfail i (by omega) h2)
      have step : requestGo w max_retries attempt (r + 1 + 1) lastError =
          ((requestGo w max_retries (attempt + 1) (r + 1) (some (errAt attempt))).1,
            Event.netAttempt attempt :: Event.sleep (6 / 5 * (attempt : ℚ)) ::
              (requestGo w max_retries (attempt + 1) (r + 1) (some (errAt attempt))).2) := by
        rw [requestGo]
        simp [hw, hlt]
      rw [step, hrest]
      simp [failEventsFrom, hlt]

/-- A first success at attempt `attempt + n`, after n failing attempts,
makes the retry loop return the parsed body right there. -/
theorem requestGo_success {α : Type} (w : Nat → AttemptOutcome α) (max_retries : Nat)
    (errAt : Nat → PyError) (b : α) :
    ∀ (n attempt r : Nat) (lastError : Option PyError),
      attempt + n ≤ max_retries →
      attempt + r = max_retries + 1 →
      (∀ i, attempt ≤ i → i < attempt + n → attemptStep (w i) = .error (errAt i)) →
      attemptStep (w (attempt + n)) = .ok b →
      requestGo w max_retries attempt r lastError =
        (.ok b, failEventsFrom max_retries attempt n ++ [.netAttempt (attempt + n)]) := by
  intro n
  induction n with
  | zero =>
      intro attempt r lastError hle hsum hfail hok
      obtain ⟨r2, rfl⟩ : ∃ r2, r = r2 + 1 := ⟨r - 1, by omega⟩
      simp only [Nat.add_zero] at hok
      simp [requestGo, hok, failEventsFrom]
  | succ n ih =>
      intro attempt r lastError hle hsum hfail hok
      obtain ⟨r2, rfl⟩ : ∃ r2, r = r2 + 1 := ⟨r - 1, by omega⟩
      have hlt : attempt < max_retries := by omega
      have hw := hfail attempt (le_refl _) (by omega)
      have hok2 : attemptStep (w (attempt + 1 + n)) = .ok b := by
        have e : attempt + 1 + n = attempt + (n + 1) := by omega
        rw [e]
        exact hok
      have hrest := ih (attempt + 1) r2 (some (errAt attempt)) (by omega) (by omega)
        (fun i h1 h2 => hfail i (by omega) (by omega)) hok2
      have e2 : attempt + 1 + n = attempt + (n + 1) := by omega
      simp [requestGo, hw, hlt, failEventsFrom, hrest, e2]

/-- C3: a request whose resolved URL does not parse to exactly the pinned
pair of scheme https and host www.moltbook.com fails with the allowlist
security error before any network I/O and is never retried: the event
trace is empty. -/
theorem c3_allowlist_blocks {α : Type} (max_retries : Nat) (api_base path : String)
    (w : Nat → AttemptOutcome α)
    (h : check_url_ok (requestUrl api_base path) = false) :
    py_request max_retries api_base path w =
      (.error (.blockedByAllowlist (requestUrl api_base path)), []) := by
  simp [py_request, h]

/-- Witness for c3_allowlist_blocks: an http (not https) base URL is
blocked with no attempt made, whatever the network would have answered. -/
theorem c3_allowlist_blocks_witness :
    check_url_ok (requestUrl "http://www.moltbook.com/api/v1" "posts") = false ∧
    py_request 3 "http://www.moltbook.com/api/v1" "posts"
        (fun _ => (AttemptOutcome.raise "net down" : AttemptOutcome Unit)) =
      (.error (.blockedByAllowlist (requestUrl "http://www.moltbook.com/api/v1" "posts")), []) :=
  ⟨by decide,
   c3_allowlist_blocks 3 "http://www.moltbook.com/api/v1" "posts"
     (fun _ => (AttemptOutcome.raise "net down" : AttemptOutcome Unit)) (by decide)⟩

/-- C4: with the allowlist satisfied, a call whose every attempt fails
makes exactly max_retries attempts, sleeps 1.2 * n seconds after each
attempt n except the last, and raises the aggregated failure referencing
the last attempt error; and a call whose attempt k succeeds after k - 1
failures returns the parsed body at attempt k with no further attempt. -/
theorem c4_retry_policy {α : Type} (max_retries : Nat) (api_base path : String)
    (w : Nat → AttemptOutcome α) (errAt : Nat → PyError) (b : α)
    (hurl : check_url_ok (requestUrl api_base path) = true) :
    (0 < max_retries →
      (∀ i, 1 ≤ i → i ≤ max_retries → attemptStep (w i) = .error (errAt i)) →
      py_request max_retries api_base path w =
        (.error (.failedAfterRetries (some (errAt max_retries))),
          expectedFailEvents max_retries)) ∧
    (∀ k, 1 ≤ k → k ≤ max_retries →
      (∀ i, 1 ≤ i → i < k → attemptStep (w i) = .error (errAt i)) →
      attemptStep (w k) = .ok b →
      py_request max_retries api_base path w =
        (.ok b, failEventsFrom max_retries 1 (k - 1) ++ [.netAttempt k])) := by
  constructor
  · intro hpos hfail
    have hgo := requestGo_allFail w max_retries errAt (max_retries - 1) 1 none
      (by omega) (fun i h1 h2 => hfail i h1 h2)
    rw [show max_retries - 1 + 1 = max_retries from by omega] at hgo
    simp [py_request, hurl, hgo, expectedFailEvents]
  · intro k hk1 hk2 hfail hok
    have hgo := requestGo_success w max_retries errAt b (k - 1) 1 max_retries none
      (by omega) (by omega) (fun i h1 h2 => hfail i h1 (by omega))
      (by rw [show 1 + (k - 1) = k from by omega]; exact hok)
    rw [show 1 + (k - 1) = k from by omega] at hgo
    simp [py_request, hurl, hgo]

/-- Witness for c4_retry_policy: three attempts all answered with HTTP
500 exhaust max_retries = 3, with sleeps of 1.2 and 2.4 seconds between
consecutive attempts, and raise the aggregated failure referencing the
last HTTP 500 error. -/
theorem c4_retry_policy_witness :
    check_url_ok (requestUrl "https://www.moltbook.com/api/v1" "posts") = true ∧
    py_request 3 "https://www.moltbook.com/api/v1" "posts"
        (fun _ => (AttemptOutcome.response 500 "Internal Server Error" (Except.error "not json") : AttemptOutcome Unit)) =
      (.error (.failedAfterRetries (some (.httpError 500 "Internal Server Error"))),
        [.netAttempt 1, .sleep (6 / 5), .netAttempt 2, .sleep (12 / 5), .netAttempt 3]) := by
  refine ⟨by decide, ?_⟩
  have h := (c4_retry_policy 3 "https://www.moltbook.com/api/v1" "posts"
      (fun _ => (AttemptOutcome.response 500 "Internal Server Error" (Except.error "not json") : AttemptOutcome Unit))
      (fun _ => PyError.httpError 500 "Internal Server Error") () (by decide)).1
    (by decide) (fun i _ _ => rfl)
  rw [h]
  norm_num [expectedFailEvents, failEventsFrom]

/-- AgentConfig (src/main.py lines 25-36), loaded once and never mutated. -/
structure AgentConfig where
  name : String
  submolt : String
  api_base : String
  dry_run : Bool
  max_comments_per_hour : Nat
  min_loop_seconds : Nat
  max_loop_seconds : Nat
  fetch_limit : Nat
  request_timeout_seconds : Nat
  max_retries : Nat
  deriving DecidableEq

/-- The observable actions of one cycle: the posts fetch, the examination
of one post by the scan loop, the dry-run log line, and the comment
network call. -/
inductive AgentAction where
  | fetchCall (submolt : String) (limit : Nat)
  | scanPost (post_id : String)
  | dryRunLog (post_id : String) (content : String)
  | commentCall (post_id : String) (content : String)
  deriving DecidableEq

/-- Whether an action is a comment network call. -/
def isCommentCall : AgentAction → Bool
  | .commentCall _ _ => true
  | _ => false

/-- What the outside world supplies to one cycle: the wall-clock time at
the rate check and at the action recording, the outcome of the
get_submolt_posts gateway call if it is made, and the outcome of the
comment gateway call for the given post id and content if it is made.
Gateway outcomes are the results of the _request layer modelled by
py_request: a parsed value or a RequestError that run_once lets
propagate. -/
structure CycleWorld where
  nowRate : ℚ
  nowRecord : ℚ
  fetch : Except RequestError (List Post)
  comment : String → String → Except RequestError Unit

/-- The post loop of run_once (src/main.py lines 223-241), scanning posts
in feed order over the fixed store state mem: a post with empty id or
already replied or with no candidate reply is passed over; at the first
accepted candidate the cycle either logs (dry run) or calls the comment
gateway (whose error propagates), then marks the post replied, records
the fingerprint and the timestamp, and breaks. -/
def scanPosts (cfg : AgentConfig) (commentW : String → String → Except RequestError Unit)
    (nowRecord : ℚ) (mem : StoreData) : List Post → Except RequestError StoreData × List AgentAction
  | [] => (.ok mem, [])
  | post :: rest =>
      if post.id == "" || has_replied mem post.id then
        let r := scanPosts cfg commentW nowRecord mem rest
        (r.1, .scanPost post.id :: r.2)
      else
        match decide_reply post mem with
        | none =>
            let r := scanPosts cfg commentW nowRecord mem rest
            (r.1, .scanPost post.id :: r.2)
        | some reply =>
            let acted := record_comment_now nowRecord
              (add_advice (mark_replied mem post.id) (short_fingerprint reply))
            if cfg.dry_run then
              (.ok acted, [.scanPost post.id, .dryRunLog post.id reply])
            else
              match commentW post.id reply with
              | .ok _ => (.ok acted, [.scanPost post.id, .commentCall post.id reply])
              | .error e => (.error e, [.scanPost post.id, .commentCall post.id reply])

/-- run_once (src/main.py lines 215-241): the rate-limit gate (whose
count call itself prunes the timestamp window), then the fetch, then the
scan. A gateway error from fetch or comment propagates out exactly as the
Python exception does. -/
def run_once (cfg : AgentConfig) (w : CycleWorld) (mem : StoreData) :
    Except RequestError StoreData × List AgentAction :=
  let rate := comment_count_last_hour w.nowRate mem
  if rate.1 ≥ cfg.max_comments_per_hour then (.ok rate.2, [])
  else
    match w.fetch with
    | .error e => (.error e, [.fetchCall cfg.submolt cfg.fetch_limit])
    | .ok posts =>
        let r := scanPosts cfg w.comment w.nowRecord rate.2 posts
        (r.1, .fetchCall cfg.submolt cfg.fetch_limit :: r.2)

/-- The once mode of main (src/main.py lines 279-281): one cycle then
exit code 0, unless the cycle raises, in which case the exception
surfaces to the caller as a failure. -/
def main_once (cfg : AgentConfig) (w : CycleWorld) (mem : StoreData) :
    Except RequestError Nat :=
  match (run_once cfg w mem).1 with
  | .error e => .error e
  | .ok _ => .ok 0

/-- The continuous loop of main (src/main.py lines 283-287), truncated to
the listed cycle worlds: run_once per cycle with no exception handler
around it, so a cycle error terminates the whole run; otherwise the loop
sleeps and continues. Returns the final outcome and the number of fully
completed cycles. -/
def main_loop (cfg : AgentConfig) (mem : StoreData) :
    List CycleWorld → Except RequestError StoreData × Nat
  | [] => (.ok mem, 0)
  | w :: ws =>
      match (run_once cfg w mem).1 with
      | .error e => (.error e, 0)
      | .ok mem2 =>
          let r := main_loop cfg mem2 ws
          (r.1, r.2 + 1)

/-- A post the scan passes over without acting: empty id, already
replied, or no candidate from the decision engine. -/
def skipsPost (mem : StoreData) (post : Post) : Bool :=
  (post.id == "" || has_replied mem post.id) || (decide_reply post mem).isNone

/-- Scanning a prefix of passed-over posts only prepends their scan
events and leaves the store and the outcome to the rest of the feed. -/
theorem scanPosts_skip (cfg : AgentConfig)
    (commentW : String → String → Except RequestError Unit)
    (nowRecord : ℚ) (mem : StoreData) :
    ∀ (pre l : List Post), (∀ q ∈ pre, skipsPost mem q = true) →
      scanPosts cfg commentW nowRecord mem (pre ++ l) =
        ((scanPosts cfg commentW nowRecord mem l).1,
          pre.map (fun q => AgentAction.scanPost q.id) ++
            (scanPosts cfg commentW nowRecord mem l).2) := by
  intro pre
  induction pre with
  | nil => intro l _; simp
  | cons q pre ih =>
      intro l hskip
      have hq := hskip q (List.mem_cons_self _ _)
      have hrest := ih l (fun p hp => hskip p (List.mem_cons_of_mem _ hp))
      by_cases h1 : (q.id == "" || has_replied mem q.id) = true
      · simp only [List.cons_append, scanPosts, h1, if_true]
        simp only [List.append_eq]
        rw [hrest]
        simp
      · have hd : decide_reply q mem = none := by
          simp only [skipsPost, h1, Bool.false_or] at hq
          exact Option.isNone_iff_eq_none.mp hq
        simp only [List.cons_append, scanPosts, h1, Bool.false_eq_true, if_false, hd]
        simp only [List.append_eq]
        rw [hrest]
        simp

/-- The scan events of a prefix never contain a comment call. -/
theorem countP_isCommentCall_scans (pre : List Post) :
    (pre.map (fun q => AgentAction.scanPost q.id)).countP isCommentCall = 0 := by
  induction pre with
  | nil => rfl
  | cons q pre ih => simp [List.countP_cons, isCommentCall, ih]

/-- C8: when the rate-limit gate sees at least max_comments_per_hour
actions within the last hour, the cycle performs zero fetch calls and no
other action: the action trace is empty and the cycle goes straight to
idle, with only the gate's own pruning of the timestamp window written
back. -/
theorem c8_rate_limit_skips_fetch (cfg : AgentConfig) (w : CycleWorld) (mem : StoreData)
    (h : (comment_count_last_hour w.nowRate mem).1 ≥ cfg.max_comments_per_hour) :
    run_once cfg w mem = (.ok (comment_count_last_hour w.nowRate mem).2, []) := by
  simp [run_once, h]

/-- A concrete configuration mirroring the config defaults, dry_run off. -/
def exCfg : AgentConfig :=
  ⟨"3mrAgent", "ai", "https://www.moltbook.com/api/v1", false, 4, 45, 110, 10, 20, 3⟩

/-- The same concrete configuration with dry_run on. -/
def exCfgDry : AgentConfig :=
  ⟨"3mrAgent", "ai", "https://www.moltbook.com/api/v1", true, 4, 45, 110, 10, 20, 3⟩

/-- A store with four actions recorded 200 seconds before time 7200. -/
def exStoreFull : StoreData := ⟨[], [], [7000, 7000, 7000, 7000]⟩

/-- A cycle world at time 7200 whose gateway calls would all succeed. -/
def exWorldIdle : CycleWorld := ⟨7200, 7200, .ok [], fun _ _ => .ok ()⟩

/-- Witness for c8_rate_limit_skips_fetch: four recent actions meet the
limit of four, so the cycle does nothing but prune. -/
theorem c8_rate_limit_skips_fetch_witness :
    (comment_count_last_hour (7200 : ℚ) exStoreFull).1 ≥ exCfg.max_comments_per_hour ∧
    run_once exCfg exWorldIdle exStoreFull =
      (.ok (comment_count_last_hour (7200 : ℚ) exStoreFull).2, []) :=
  ⟨by norm_num [comment_count_last_hour, exStoreFull, exCfg, List.filter],
   c8_rate_limit_skips_fetch exCfg exWorldIdle exStoreFull
     (by norm_num [comment_count_last_hour, exStoreFull, exCfg, exWorldIdle, List.filter])⟩

/-- C5: with dry-run enabled, a cycle that passes the rate gate and whose
feed is a prefix of passed-over posts followed by a post with a candidate
reply still marks that post replied, records the reply fingerprint, and
records the action timestamp, all three in the store written back, while
the action trace holds the fetch, the scans and the dry-run log only: no
comment network call is performed. -/
theorem c5_dry_run_advances_state (cfg : AgentConfig) (w : CycleWorld) (mem : StoreData)
    (pre rest : List Post) (post : Post) (reply : String)
    (hdry : cfg.dry_run = true)
    (hrate : (comment_count_last_hour w.nowRate mem).1 < cfg.max_comments_per_hour)
    (hfetch : w.fetch = .ok (pre ++ post :: rest))
    (hpre : ∀ q ∈ pre, skipsPost (comment_count_last_hour w.nowRate mem).2 q = true)
    (hid : (post.id == "" || has_replied (comment_count_last_hour w.nowRate mem).2 post.id) = false)
    (hdec : decide_reply post (comment_count_last_hour w.nowRate mem).2 = some reply) :
    run_once cfg w mem =
      (.ok (record_comment_now w.nowRecord
          (add_advice (mark_replied (comment_count_last_hour w.nowRate mem).2 post.id)
            (short_fingerprint reply))),
        AgentAction.fetchCall cfg.submolt cfg.fetch_limit ::
          (pre.map (fun q => AgentAction.scanPost q.id) ++
            [AgentAction.scanPost post.id, AgentAction.dryRunLog post.id reply])) ∧
    ∀ a ∈ (run_once cfg w mem).2, isCommentCall a = false := by
  have hnot : ¬ (comment_count_last_hour w.nowRate mem).1 ≥ cfg.max_comments_per_hour := by
    omega
  have hone : scanPosts cfg w.comment w.nowRecord
        (comment_count_last_hour w.nowRate mem).2 (post :: rest) =
      (.ok (record_comment_now w.nowRecord
          (add_advice (mark_replied (comment_count_last_hour w.nowRate mem).2 post.id)
            (short_fingerprint reply))),
        [AgentAction.scanPost post.id, AgentAction.dryRunLog post.id reply]) := by
    simp only [scanPosts, hid, Bool.false_eq_true, if_false, hdec, hdry, if_true]
  have hmain : run_once cfg w mem =
      (.ok (record_comment_now w.nowRecord
          (add_advice (mark_replied (comment_count_last_hour w.nowRate mem).2 post.id)
            (short_fingerprint reply))),
        AgentAction.fetchCall cfg.submolt cfg.fetch_limit ::
          (pre.map (fun q => AgentAction.scanPost q.id) ++
            [AgentAction.scanPost post.id, AgentAction.dryRunLog post.id reply])) := by
    simp only [run_once]
    rw [if_neg hnot, hfetch]
    simp only []
    rw [scanPosts_skip cfg w.comment w.nowRecord
      (comment_count_last_hour w.nowRate mem).2 pre (post :: rest) hpre, hone]
  refine ⟨hmain, ?_⟩
  rw [hmain]
  intro a ha
  simp only [List.mem_cons, List.mem_append, List.mem_map, List.mem_singleton,
    List.not_mem_nil, or_false] at ha
  rcases ha with rfl | ⟨q, hq, rfl⟩ | rfl | rfl <;> rfl

/-- A post the agent has already replied to. -/
def exPost1 : Post := ⟨"1", "Seen before", "Already handled."⟩

/-- A fresh qualifying post: long enough and containing a question mark. -/
def exPost2 : Post :=
  ⟨"2", "Why do you believe this debate is settled so quickly?", "Give your reasons."⟩

/-- A store that has already replied to post 1. -/
def exStoreReplied : StoreData := ⟨["1"], [], []⟩

/-- A cycle world at time 0 whose feed returns posts 1 and 2 and whose
comment gateway call succeeds. -/
def exWorldTwoPosts : CycleWorld := ⟨0, 0, .ok [exPost1, exPost2], fun _ _ => .ok ()⟩

/-- Witness for c5_dry_run_advances_state: with dry-run on, the cycle on
the two-post feed advances all three store components for post 2 and logs
instead of commenting. -/
theorem c5_dry_run_advances_state_witness :
    decide_reply exPost2 (comment_count_last_hour 0 exStoreReplied).2 = some template_default ∧
    run_once exCfgDry exWorldTwoPosts exStoreReplied =
      (.ok (record_comment_now 0
          (add_advice (mark_replied (comment_count_last_hour 0 exStoreReplied).2 "2")
            (short_fingerprint template_default))),
        [AgentAction.fetchCall "ai" 10, AgentAction.scanPost "1", AgentAction.scanPost "2",
          AgentAction.dryRunLog "2" template_default]) :=
  ⟨by decide,
   (c5_dry_run_advances_state exCfgDry exWorldTwoPosts exStoreReplied [exPost1] [] exPost2
      template_default rfl (by decide) rfl
      (fun q hq => by rcases List.mem_singleton.mp hq with rfl; decide)
      (by decide) (by decide)).1⟩

/-- C7: a cycle scans posts in feed order, passes over posts with an
empty id or already replied or rejected by the decision engine, and at
the first accepted candidate (dry-run off, comment call succeeding) takes
exactly one comment action against that post, evaluating no further post:
the trace is exactly the fetch, the scans of the prefix in order, the
scan of the accepted post and its single comment call. -/
theorem c7_single_reply_per_cycle (cfg : AgentConfig) (w : CycleWorld) (mem : StoreData)
    (pre rest : List Post) (post : Post) (reply : String)
    (hdry : cfg.dry_run = false)
    (hrate : (comment_count_last_hour w.nowRate mem).1 < cfg.max_comments_per_hour)
    (hfetch : w.fetch = .ok (pre ++ post :: rest))
    (hpre : ∀ q ∈ pre, skipsPost (comment_count_last_hour w.nowRate mem).2 q = true)
    (hid : (post.id == "" || has_replied (comment_count_last_hour w.nowRate mem).2 post.id) = false)
    (hdec : decide_reply post (comment_count_last_hour w.nowRate mem).2 = some reply)
    (hcomment : w.comment post.id reply = .ok ()) :
    run_once cfg w mem =
      (.ok (record_comment_now w.nowRecord
          (add_advice (mark_replied (comment_count_last_hour w.nowRate mem).2 post.id)
            (short_fingerprint reply))),
        AgentAction.fetchCall cfg.submolt cfg.fetch_limit ::
          (pre.map (fun q => AgentAction.scanPost q.id) ++
            [AgentAction.scanPost post.id, AgentAction.commentCall post.id reply])) ∧
    (run_once cfg w mem).2.countP isCommentCall = 1 := by
  have hnot : ¬ (comment_count_last_hour w.nowRate mem).1 ≥ cfg.max_comments_per_hour := by
    omega
  have hone : scanPosts cfg w.comment w.nowRecord
        (comment_count_last_hour w.nowRate mem).2 (post :: rest) =
      (.ok (record_comment_now w.nowRecord
          (add_advice (mark_replied (comment_count_last_hour w.nowRate mem).2 post.id)
            (short_fingerprint reply))),
        [AgentAction.scanPost post.id, AgentAction.commentCall post.id reply]) := by
    simp only [scanPosts, hid, Bool.false_eq_true, if_false, hdec, hdry, hcomment]
  have hmain : run_once cfg w mem =
      (.ok (record_comment_now w.nowRecord
          (add_advice (mark_replied (comment_count_last_hour w.nowRate mem).2 post.id)
            (short_fingerprint reply))),
        AgentAction.fetchCall cfg.submolt cfg.fetch_limit ::
          (pre.map (fun q => AgentAction.scanPost q.id) ++
            [AgentAction.scanPost post.id, AgentAction.commentCall post.id reply])) := by
    simp only [run_once]
    rw [if_neg hnot, hfetch]
    simp only []
    rw [scanPosts_skip cfg w.comment w.nowRecord
      (comment_count_last_hour w.nowRate mem).2 pre (post :: rest) hpre, hone]
  refine ⟨hmain, ?_⟩
  rw [hmain]
  simp [List.countP_cons, List.countP_append, countP_isCommentCall_scans, isCommentCall]

/-- Witness for c7_single_reply_per_cycle: the two-post feed whose first
post is already replied and second qualifies yields exactly one comment
call, against post 2, with no post examined after it. -/
theorem c7_single_reply_per_cycle_witness :
    run_once exCfg exWorldTwoPosts exStoreReplied =
      (.ok (record_comment_now 0
          (add_advice (mark_replied (comment_count_last_hour 0 exStoreReplied).2 "2")
            (short_fingerprint template_default))),
        [AgentAction.fetchCall "ai" 10, AgentAction.scanPost "1", AgentAction.scanPost "2",
          AgentAction.commentCall "2" template_default]) ∧
    (run_once exCfg exWorldTwoPosts exStoreReplied).2.countP isCommentCall = 1 :=
  (c7_single_reply_per_cycle exCfg exWorldTwoPosts exStoreReplied [exPost1] [] exPost2
    template_default rfl (by decide) rfl
    (fun q hq => by rcases List.mem_singleton.mp hq with rfl; decide)
    (by decide) (by decide) rfl)

/-- A cycle world at time 0 whose feed gateway call has exhausted its
retries, with a timeout as the last underlying error. -/
def exWorldFail : CycleWorld :=
  ⟨0, 0, .error (.failedAfterRetries (some (.requestExc "timeout"))), fun _ _ => .ok ()⟩

/-- A cycle world at time 0 with an empty successful feed. -/
def exWorldOk : CycleWorld := ⟨0, 0, .ok [], fun _ _ => .ok ()⟩

/-- An empty store. -/
def exStoreEmpty : StoreData := ⟨[], [], []⟩

/-- C1 (amended): a Gateway call that exhausts its retries surfaces the
single aggregated failure out of run_once in both modes: in continuous
loop mode the uncaught exception terminates the whole run with zero
completed cycles, because the while loop of main has no handler around
run_once, so the process dies instead of proceeding to the next cycle;
in run-once mode the same failure surfaces to the caller in place of
exit code 0. -/
theorem c1_failure_propagation_amended (cfg : AgentConfig) (w : CycleWorld)
    (ws : List CycleWorld) (mem : StoreData) (e : Option PyError)
    (hrate : (comment_count_last_hour w.nowRate mem).1 < cfg.max_comments_per_hour)
    (hfetch : w.fetch = .error (.failedAfterRetries e)) :
    main_loop cfg mem (w :: ws) = (.error (.failedAfterRetries e), 0) ∧
    main_once cfg w mem = .error (.failedAfterRetries e) := by
  have hnot : ¬ (comment_count_last_hour w.nowRate mem).1 ≥ cfg.max_comments_per_hour := by
    omega
  have hr : (run_once cfg w mem).1 = .error (.failedAfterRetries e) := by
    simp only [run_once]
    rw [if_neg hnot, hfetch]
  constructor
  · simp only [main_loop, hr]
  · simp only [main_once, hr]

/-- Witness for c1_failure_propagation_amended: a first cycle whose fetch
call exhausted its retries kills the truncated loop with zero completed
cycles and makes once mode fail. -/
theorem c1_failure_propagation_amended_witness :
    (comment_count_last_hour 0 exStoreEmpty).1 < exCfg.max_comments_per_hour ∧
    main_loop exCfg exStoreEmpty [exWorldFail] =
      (.error (.failedAfterRetries (some (.requestExc "timeout"))), 0) ∧
    main_once exCfg exWorldFail exStoreEmpty =
      .error (.failedAfterRetries (some (.requestExc "timeout"))) :=
  ⟨by decide,
   c1_failure_propagation_amended exCfg exWorldFail [] exStoreEmpty
     (some (.requestExc "timeout")) (by decide) rfl⟩

/-- C1 (counterexample): the claim says that in continuous loop mode a
cycle whose Gateway call exhausted its retries aborts only that cycle and
the outer loop proceeds to the next cycle with the process alive. In the
code the while loop of main has no exception handler around run_once, so
with a first cycle whose fetch surfaces the aggregated failure and a
second cycle that would succeed, the run terminates at once with the
failure and zero completed cycles: it never reaches the second cycle and
in particular never finishes both cycles alive. -/
theorem c1_failure_propagation_counterexample :
    main_loop exCfg exStoreEmpty [exWorldFail, exWorldOk] =
      (.error (.failedAfterRetries (some (.requestExc "timeout"))), 0) ∧
    ∀ st : StoreData,
      main_loop exCfg exStoreEmpty [exWorldFail, exWorldOk] ≠ (.ok st, 2) := by
  have h : main_loop exCfg exStoreEmpty [exWorldFail, exWorldOk] =
      (.error (.failedAfterRetries (some (.requestExc "timeout"))), 0) := by rfl
  refine ⟨h, ?_⟩
  intro st hst
  rw [h] at hst
  simp at hst
